import Mathlib

/-!
Verification development for the JanAvlokan repository.

Shallow embedding of the core subsystems:
* `src/lib/gemini.ts` — input sanitization, reason-code derivation, template
  fallback and the Gemini explanation generator;
* `src/app/api/audit/route.ts` — the POST handler recording audit entries;
* the temporal-spike detection route — the district spike query pipeline.

JavaScript string primitives are embedded over `List Char`:
`toLowerCase`/`toUpperCase` map `Char.toLower`/`Char.toUpper` over the
characters, `trim` drops leading and trailing whitespace, and
`String.prototype.includes` is a substring search.  These agree with the
JavaScript semantics on all ASCII inputs relevant here.
-/

/-- Embedding of `String.prototype.toLowerCase` (ASCII-faithful). -/
def jsToLower (s : String) : String := ⟨s.data.map Char.toLower⟩

/-- Embedding of `String.prototype.toUpperCase` (ASCII-faithful). -/
def jsToUpper (s : String) : String := ⟨s.data.map Char.toUpper⟩

/-- Embedding of `String.prototype.trim`: drop leading and trailing whitespace. -/
def jsTrim (s : String) : String :=
  ⟨((s.data.dropWhile Char.isWhitespace).reverse.dropWhile Char.isWhitespace).reverse⟩

/-- Does `hay` start with `needle`? Helper for the substring search. -/
def charsStartWith : List Char → List Char → Bool
  | _, [] => true
  | [], _ :: _ => false
  | a :: as, b :: bs => a == b && charsStartWith as bs

/-- Embedding of `String.prototype.includes`: does `hay` contain `needle`
as a contiguous subsequence? -/
def charsContain : List Char → List Char → Bool
  | [], needle => needle.isEmpty
  | a :: t, needle => charsStartWith (a :: t) needle || charsContain t needle

/-- JavaScript `x || d` on an optional string: `undefined` and the empty
string are falsy and fall through to the default. -/
def jsOrElse (o : Option String) (d : String) : String :=
  match o with
  | some s => if s = "" then d else s
  | none => d

/-- The three values of the `SupportedLanguage` union type in `gemini.ts`. -/
inductive SupportedLanguage
  | en
  | hi
  | hinglish
deriving DecidableEq

/-- `DEFAULT_LANGUAGE` from `gemini.ts`. -/
def DEFAULT_LANGUAGE : SupportedLanguage := .en

/-- `ALLOWED_RISK_LEVELS` from `gemini.ts`. -/
def ALLOWED_RISK_LEVELS : List String := ["HIGH", "MEDIUM", "LOW"]

/-- `ALLOWED_REASON_CODES` from `gemini.ts`. -/
def ALLOWED_REASON_CODES : List String :=
  ["high_recent_activity", "multiple_dealers", "cross_district",
   "high_lifetime_usage", "normal"]

/-- `sanitizeRiskLevel` from `gemini.ts`: upper-case, trim, then check the
allowlist; anything else becomes the sentinel `"UNKNOWN"`. -/
def sanitizeRiskLevel (riskLevel : String) : String :=
  let normalized := jsTrim (jsToUpper riskLevel)
  if ALLOWED_RISK_LEVELS.contains normalized then normalized else "UNKNOWN"

/-- The per-element cleaning step of `sanitizeReasonCodes`:
`code.toLowerCase().trim().replace(/[\x00-\x1f\x7f]/g, "")`. -/
def cleanCode (code : String) : String :=
  ⟨(jsTrim (jsToLower code)).data.filter (fun c => !(c.toNat ≤ 31 || c.toNat == 127))⟩

/-- The `sanitized` local of `sanitizeReasonCodes`: clean each element and
keep only allowlisted results (`map` to the cleaned code or `null`, then
`filter` the nulls out). -/
def sanitizedCodes (reasonCodes : List String) : List String :=
  reasonCodes.filterMap (fun code =>
    if ALLOWED_REASON_CODES.contains (cleanCode code) then some (cleanCode code) else none)

/-- `sanitizeReasonCodes` from `gemini.ts`: clean each element, keep only
allowlisted results, and default to `["normal"]` when nothing survives. -/
def sanitizeReasonCodes (reasonCodes : List String) : List String :=
  if 0 < (sanitizedCodes reasonCodes).length then sanitizedCodes reasonCodes
  else ["normal"]

/-- `REASON_TEMPLATES` from `gemini.ts`, one association table per language. -/
def REASON_TEMPLATES (lang : SupportedLanguage) : List (String × String) :=
  match lang with
  | .en =>
    [("high_recent_activity", "Unusually high number of LPG refills detected in the last 30 days"),
     ("multiple_dealers", "Refills recorded from multiple dealers in short time period"),
     ("cross_district", "LPG refills detected across different districts"),
     ("high_lifetime_usage", "Higher-than-expected lifetime refill count compared to regional norms"),
     ("normal", "Refill behavior aligns with historical and regional norms")]
  | .hi =>
    [("high_recent_activity", "पिछले 30 दिनों में असामान्य रूप से अधिक एलपीजी रिफिल पाए गए"),
     ("multiple_dealers", "कम समय में एकाधिक डीलरों से रिफिल दर्ज किए गए"),
     ("cross_district", "विभिन्न जिलों से एलपीजी रिफिल पाए गए"),
     ("high_lifetime_usage", "क्षेत्रीय मानकों की तुलना में अपेक्षा से अधिक जीवनकाल रिफिल संख्या"),
     ("normal", "रिफिल व्यवहार ऐतिहासिक और क्षेत्रीय मानकों के अनुरूप है")]
  | .hinglish =>
    [("high_recent_activity", "Pichhle 30 dinon mein unusually zyada LPG refills detect hui hain"),
     ("multiple_dealers", "Multiple dealers se short time mein refills recorded hain"),
     ("cross_district", "Alag-alag districts se LPG refills detect hui hain"),
     ("high_lifetime_usage", "Regional norms ki tulna mein lifetime refill count zyada hai"),
     ("normal", "Refill behavior historical aur regional norms ke according hai")]

/-- The `templates.normal` property access in `getStaticExplanations`. -/
def normalTemplate (lang : SupportedLanguage) : String :=
  (((REASON_TEMPLATES lang).lookup "normal").getD "")

/-- One element of `getStaticExplanations`: `templates[code] || templates.normal`. -/
def staticExplanation (lang : SupportedLanguage) (code : String) : String :=
  jsOrElse ((REASON_TEMPLATES lang).lookup code) (normalTemplate lang)

/-- `getStaticExplanations` from `gemini.ts`. -/
def getStaticExplanations (reasonCodes : List String) (lang : SupportedLanguage) :
    List String :=
  reasonCodes.map (staticExplanation lang)

/-- The four boolean risk flags taken by `flagsToReasonCodes`. -/
structure RiskFlags where
  flag_high_recent_activity : Bool
  flag_multiple_dealers : Bool
  flag_cross_district : Bool
  flag_high_lifetime_usage : Bool
deriving DecidableEq

/-- `flagsToReasonCodes` from `gemini.ts`: push a code per set flag in a
fixed order, and push `"normal"` when the list would be empty. -/
def flagsToReasonCodes (flags : RiskFlags) : List String :=
  let reasons :=
    (if flags.flag_high_recent_activity then ["high_recent_activity"] else []) ++
    (if flags.flag_multiple_dealers then ["multiple_dealers"] else []) ++
    (if flags.flag_cross_district then ["cross_district"] else []) ++
    (if flags.flag_high_lifetime_usage then ["high_lifetime_usage"] else [])
  if reasons.length = 0 then ["normal"] else reasons

/-- Embedding of `Array.prototype.join(sep)`. -/
def joinSep (sep : String) : List String → String
  | [] => ""
  | [x] => x
  | x :: y :: ys => x ++ sep ++ joinSep sep (y :: ys)

/-- The `blockedWords` list of the output safety filter in
`generateGeminiExplanation`. -/
def blockedWords : List String :=
  ["fraud", "intent", "prediction", "suspicious", "criminal", "illegal", "model thinks"]

/-- The safety-filter check: `blockedWords.some(w => explanation.toLowerCase().includes(w))`. -/
def hasBlockedWord (explanation : String) : Bool :=
  blockedWords.any (fun w => charsContain (jsToLower explanation).data w.data)

/-- Outcome of the single `fetch` of the Gemini service, as observed by
`generateGeminiExplanation`: a non-success HTTP status, a successful JSON
response with its extracted candidate text (`data.candidates?...?.text || ""`),
the timeout abort, or any other transport error. -/
inductive ServiceResult
  | httpError (status : Nat)
  | ok (text : String)
  | abortTimeout
  | transportError (msg : String)

/-- `generateGeminiExplanation` from `gemini.ts`, with the environment made
explicit: `apiKey` is `process.env.GEMINI_API_KEY || ""` and `svc` is the
observed outcome of the network call.  The prompt built from the sanitized
inputs does not influence the returned value and is not modelled. -/
def generateGeminiExplanation (apiKey : String) (riskLevel : String)
    (reasonCodes : List String) (language : SupportedLanguage)
    (svc : ServiceResult) : String :=
  let _safeRiskLevel := sanitizeRiskLevel riskLevel
  let safeReasonCodes := sanitizeReasonCodes reasonCodes
  if apiKey = "" then
    joinSep "\n" (getStaticExplanations safeReasonCodes language)
  else
    match svc with
    | .httpError _ => joinSep "\n" (getStaticExplanations safeReasonCodes language)
    | .abortTimeout => joinSep "\n" (getStaticExplanations safeReasonCodes language)
    | .transportError _ => joinSep "\n" (getStaticExplanations safeReasonCodes language)
    | .ok text =>
      if hasBlockedWord text || jsTrim text = "" then
        joinSep "\n" (getStaticExplanations safeReasonCodes language)
      else
        jsTrim text

/-- The `action` union type of `src/app/api/audit/route.ts` (POST side). -/
inductive AuditAction
  | REVIEWED
  | FLAGGED
  | CLEARED
  | NOTE_ADDED
deriving DecidableEq

/-- The parsed request body of the audit POST handler.  A JSON-absent field
is `none`; `beneficiary_id` is kept as a plain string, with the absent case
identified with `""` (both are falsy in the handler's presence check). -/
structure AuditRequest where
  beneficiary_id : String
  action : Option AuditAction
  officer_id : Option String
  officer_name : Option String
  notes : Option String
  new_status : Option String
deriving DecidableEq

/-- The `AuditEntry` interface of `src/app/api/audit/route.ts`. -/
structure AuditEntry where
  audit_id : String
  beneficiary_id : String
  action : AuditAction
  officer_id : String
  officer_name : String
  notes : String
  previous_status : String
  new_status : String
  created_at : String
deriving DecidableEq

/-- The JSON response of the audit POST handler, with its HTTP status. -/
structure PostResponse where
  status : Nat
  success : Bool
  error : Option String
  audit : Option AuditEntry
deriving DecidableEq

/-- The audit-entry construction block of the POST handler
(`route.ts` lines 118–128): defaults applied by JavaScript `||`. -/
def buildAuditEntry (req : AuditRequest) (act : AuditAction)
    (previousStatus : String) (uuid now : String) : AuditEntry :=
  { audit_id := uuid
    beneficiary_id := req.beneficiary_id
    action := act
    officer_id := jsOrElse req.officer_id "SYSTEM"
    officer_name := jsOrElse req.officer_name "System User"
    notes := jsOrElse req.notes ""
    previous_status := previousStatus
    new_status := jsOrElse req.new_status previousStatus
    created_at := now }

/-- The POST handler of `src/app/api/audit/route.ts`, with its environment
made explicit: `statusRead` is the outcome of the risk-level query
(`.ok r` carries `statusRows[0]?.risk_level`), `insertResult` the outcome of
the `INSERT` job, `uuid` the generated id and `now` the timestamp.  A failed
status read escapes to the outer catch (HTTP 500); a failed insert is
swallowed and the handler still answers HTTP 200 with the entry. -/
def auditPOST (req : AuditRequest) (statusRead : Except String (Option String))
    (insertResult : Except String Unit) (uuid now : String) : PostResponse :=
  if req.beneficiary_id = "" ∨ req.action = none then
    { status := 400, success := false,
      error := some "beneficiary_id and action are required", audit := none }
  else
    match req.action with
    | none =>
      { status := 400, success := false,
        error := some "beneficiary_id and action are required", audit := none }
    | some act =>
      match statusRead with
      | .error e =>
        { status := 500, success := false, error := some e, audit := none }
      | .ok row =>
        let previousStatus := jsOrElse row "UNKNOWN"
        let entry := buildAuditEntry req act previousStatus uuid now
        match insertResult with
        | .ok _ =>
          { status := 200, success := true, error := none, audit := some entry }
        | .error _ =>
          { status := 200, success := true, error := none, audit := some entry }

/-- `AVG(anomaly_count)` over the per-group counts, as exact arithmetic. -/
def avgCount (l : List ℕ) : ℚ :=
  (l.map (fun x => (x : ℚ))).sum / l.length

/-- `STDDEV(anomaly_count)` squared: the sample variance (BigQuery `STDDEV`
is `STDDEV_SAMP`).  For a single group BigQuery yields `NULL`, which makes
every threshold comparison fail; this embedding yields variance `0` there,
and a single group never strictly exceeds its own mean, so the observable
output of the pipeline agrees. -/
def sampleVar (l : List ℕ) : ℚ :=
  (l.map (fun x => ((x : ℚ) - avgCount l) ^ 2)).sum / ((l.length : ℚ) - 1)

/-- Decides `count > avg + k * stddev` without leaving ℚ: for `k ≥ 0` and a
nonnegative variance this is equivalent to the square-free comparison (see
`exceeds_iff_real`). -/
def exceeds (l : List ℕ) (k : ℚ) (c : ℕ) : Bool :=
  decide (avgCount l < (c : ℚ) ∧ k ^ 2 * sampleVar l < ((c : ℚ) - avgCount l) ^ 2)

/-- The `CASE` classification of the spike query: `CRITICAL` above
`μ + 2.5σ`, `HIGH` above `μ + 2σ`, else `MODERATE`. -/
def spikeType (l : List ℕ) (c : ℕ) : String :=
  if exceeds l (5/2) c then "CRITICAL"
  else if exceeds l 2 c then "HIGH"
  else "MODERATE"

/-- `ROUND(q, d)`: round to `d` decimal places (half away from zero on the
values produced here, which are nonnegative). -/
def roundTo (d : ℕ) (q : ℚ) : ℚ :=
  ((round (q * 10 ^ d) : ℤ) : ℚ) / 10 ^ d

/-- One row of the spike route's response (`TemporalSpike` minus the
synthetic `date` column, which only encodes the output rank). -/
structure TemporalSpike where
  spike_type : String
  anomaly_count : ℕ
  avg_baseline : ℚ
  deviation_percentage : Option ℚ
  affected_districts : List String
deriving DecidableEq

/-- `ORDER BY anomaly_count DESC` as a relation on keyed counts. -/
def descCount (p q : String × ℕ) : Prop := q.2 ≤ p.2

instance : DecidableRel descCount := fun p q => Nat.decLe q.2 p.2

instance : IsTotal (String × ℕ) descCount := ⟨fun a b => Nat.le_total b.2 a.2⟩

instance : IsTrans (String × ℕ) descCount := ⟨fun _ _ _ h1 h2 => Nat.le_trans h2 h1⟩

/-- The spike-detection query pipeline over the per-district counts
(`district_stats` rows as key/count pairs): filter the groups strictly above
`μ + 1.5σ`, order by count descending, keep at most 20, and project each row
to its response shape. -/
def detectSpikes (gcs : List (String × ℕ)) : List TemporalSpike :=
  let counts := gcs.map Prod.snd
  let μ := avgCount counts
  let filtered := gcs.filter (fun p => exceeds counts (3/2) p.2)
  let sorted := List.insertionSort descCount filtered
  let limited := sorted.take 20
  limited.map (fun p =>
    { spike_type := spikeType counts p.2
      anomaly_count := p.2
      avg_baseline := roundTo 2 μ
      deviation_percentage :=
        if μ = 0 then none else some (roundTo 1 (((p.2 : ℚ) - μ) / μ * 100))
      affected_districts := [p.1] })

/-- The deterministic fallback string of `generateGeminiExplanation`:
`getStaticExplanations(safeReasonCodes, language).join("\n")`. -/
def staticFallback (reasonCodes : List String) (language : SupportedLanguage) : String :=
  joinSep "\n" (getStaticExplanations (sanitizeReasonCodes reasonCodes) language)

/-!  Helper lemmas shared by several claims. -/

lemma contains_iff_mem (l : List String) (a : String) : l.contains a = true ↔ a ∈ l := by
  induction l with
  | nil => simp
  | cons b t ih => simp [List.contains, List.elem_cons]

lemma mem_sanitizedCodes {l : List String} {c : String} (h : c ∈ sanitizedCodes l) :
    ∃ x ∈ l, cleanCode x = c ∧ ALLOWED_REASON_CODES.contains (cleanCode x) = true := by
  obtain ⟨x, hxl, hx⟩ := List.mem_filterMap.mp h
  split at hx
  · exact ⟨x, hxl, Option.some.inj hx, by assumption⟩
  · exact absurd hx (by simp)

lemma not_mem_of_contains_false {l : List String} {a : String}
    (h : l.contains a = false) : a ∉ l := by
  intro hm
  have := (contains_iff_mem l a).mpr hm
  rw [h] at this
  exact Bool.false_ne_true this

lemma sanitize_mem_allowed {l : List String} {c : String}
    (h : c ∈ sanitizeReasonCodes l) : c ∈ ALLOWED_REASON_CODES := by
  unfold sanitizeReasonCodes at h
  split at h
  · obtain ⟨x, _, heq, hcont⟩ := mem_sanitizedCodes h
    rw [← heq]
    exact (contains_iff_mem _ _).mp hcont
  · have : c = "normal" := by simpa using h
    subst this
    decide

lemma sanitize_ne_nil (l : List String) : sanitizeReasonCodes l ≠ [] := by
  unfold sanitizeReasonCodes
  split
  · exact List.ne_nil_of_length_pos (by assumption)
  · simp

lemma joinSep_head_length (sep x : String) (l : List String) :
    x.length ≤ (joinSep sep (x :: l)).length := by
  cases l with
  | nil => simp [joinSep]
  | cons y ys =>
    show x.length ≤ (x ++ sep ++ joinSep sep (y :: ys)).length
    simp [String.length_append]
    omega

lemma staticExplanation_length_pos (lang : SupportedLanguage) {c : String}
    (hc : c ∈ ALLOWED_REASON_CODES) : 0 < (staticExplanation lang c).length := by
  have hc' : c = "high_recent_activity" ∨ c = "multiple_dealers" ∨
      c = "cross_district" ∨ c = "high_lifetime_usage" ∨ c = "normal" := by
    simpa [ALLOWED_REASON_CODES] using hc
  rcases hc' with rfl | rfl | rfl | rfl | rfl <;> cases lang <;> decide

lemma staticFallback_ne_empty (reasonCodes : List String) (lang : SupportedLanguage) :
    staticFallback reasonCodes lang ≠ "" := by
  rcases hs : sanitizeReasonCodes reasonCodes with _ | ⟨c, rest⟩
  · exact absurd hs (sanitize_ne_nil reasonCodes)
  · have hc : c ∈ ALLOWED_REASON_CODES :=
      sanitize_mem_allowed (by rw [hs]; exact List.mem_cons_self c rest)
    have hpos : 0 < (staticExplanation lang c).length :=
      staticExplanation_length_pos lang hc
    have hlen : 0 < (staticFallback reasonCodes lang).length := by
      unfold staticFallback getStaticExplanations
      rw [hs, List.map_cons]
      exact lt_of_lt_of_le hpos (joinSep_head_length _ _ _)
    intro he
    rw [he] at hlen
    exact absurd hlen (by decide)

/-- C4: for every combination of the four boolean risk flags, the derived
reason-code list is non-empty; it equals exactly `["normal"]` iff all four
flags are false; `"normal"` never co-occurs with another code; and set flags
map one-to-one to codes in the fixed order
`high_recent_activity, multiple_dealers, cross_district, high_lifetime_usage`. -/
theorem flagsToReasonCodes_spec (f : RiskFlags) :
    flagsToReasonCodes f ≠ [] ∧
    (flagsToReasonCodes f = ["normal"] ↔ f = ⟨false, false, false, false⟩) ∧
    ("normal" ∈ flagsToReasonCodes f → flagsToReasonCodes f = ["normal"]) ∧
    ("high_recent_activity" ∈ flagsToReasonCodes f ↔ f.flag_high_recent_activity = true) ∧
    ("multiple_dealers" ∈ flagsToReasonCodes f ↔ f.flag_multiple_dealers = true) ∧
    ("cross_district" ∈ flagsToReasonCodes f ↔ f.flag_cross_district = true) ∧
    ("high_lifetime_usage" ∈ flagsToReasonCodes f ↔ f.flag_high_lifetime_usage = true) ∧
    (flagsToReasonCodes f).Sublist
      ["high_recent_activity", "multiple_dealers", "cross_district",
       "high_lifetime_usage", "normal"] := by
  obtain ⟨a, b, c, d⟩ := f
  cases a <;> cases b <;> cases c <;> cases d <;> decide

/-- C5 counterexample: on `["HIGH_RECENT_ACTIVITY\n<script>"]` the code does
not return `["high_recent_activity"]` — the cleaned token keeps the
`<script>` suffix, fails the allowlist, and the result defaults to
`["normal"]`. -/
theorem sanitize_script_counterexample :
    sanitizeReasonCodes ["HIGH_RECENT_ACTIVITY\n<script>"] ≠ ["high_recent_activity"] ∧
    sanitizeReasonCodes ["HIGH_RECENT_ACTIVITY\n<script>"] = ["normal"] := by
  decide

/-- C5 amended: cleaning strips the control character and folds case, but the
unknown `<script>` suffix makes the whole token fail the allowlist, so it is
dropped and the empty result defaults to `["normal"]`. -/
theorem sanitize_script_amended :
    cleanCode "HIGH_RECENT_ACTIVITY\n<script>" = "high_recent_activity<script>" ∧
    ALLOWED_REASON_CODES.contains (cleanCode "HIGH_RECENT_ACTIVITY\n<script>") = false ∧
    sanitizeReasonCodes ["HIGH_RECENT_ACTIVITY\n<script>"] = ["normal"] := by
  decide

/-- C6: `sanitizeReasonCodes` always returns a non-empty list of allowlisted
codes; invalid elements are dropped, not substituted (every returned code is
the cleaned form of some input element, unless the default applies); the
empty input and all-invalid inputs yield exactly `["normal"]`. -/
theorem sanitizeReasonCodes_spec (l : List String) :
    sanitizeReasonCodes l ≠ [] ∧
    (∀ c ∈ sanitizeReasonCodes l, c ∈ ALLOWED_REASON_CODES) ∧
    (sanitizeReasonCodes l = ["normal"] ∨
      ∀ c ∈ sanitizeReasonCodes l, ∃ x ∈ l, cleanCode x = c ∧
        ALLOWED_REASON_CODES.contains (cleanCode x) = true) ∧
    (l = [] → sanitizeReasonCodes l = ["normal"]) ∧
    ((∀ x ∈ l, ALLOWED_REASON_CODES.contains (cleanCode x) = false) →
      sanitizeReasonCodes l = ["normal"]) := by
  refine ⟨sanitize_ne_nil l, fun c hc => sanitize_mem_allowed hc, ?_, ?_, ?_⟩
  · unfold sanitizeReasonCodes
    split
    · exact Or.inr (fun c hc => mem_sanitizedCodes hc)
    · left; rfl
  · rintro rfl
    decide
  · intro hall
    unfold sanitizeReasonCodes
    have hnil : sanitizedCodes l = [] := by
      unfold sanitizedCodes
      rw [List.filterMap_eq_nil_iff]
      intro x hx
      have h' : cleanCode x ∉ ALLOWED_REASON_CODES :=
        not_mem_of_contains_false (hall x hx)
      simp [h']
    rw [hnil]
    simp

/-- C6 witness: the empty input and an all-invalid input both yield `["normal"]`. -/
theorem sanitizeReasonCodes_spec_witness :
    sanitizeReasonCodes ([] : List String) = ["normal"] ∧
    sanitizeReasonCodes ["totally_invalid"] = ["normal"] :=
  ⟨(sanitizeReasonCodes_spec []).2.2.2.1 rfl,
   (sanitizeReasonCodes_spec ["totally_invalid"]).2.2.2.2 (by decide)⟩

/-- C7: `sanitizeRiskLevel` upper-cases and trims, returns the normalized
value exactly when it is in the `{HIGH, MEDIUM, LOW}` allowlist and the
sentinel `"UNKNOWN"` otherwise; `"high"`, `"High "` and `" HIGH"` all map to
`"HIGH"`, and an injection string maps to `"UNKNOWN"`. -/
theorem sanitizeRiskLevel_spec (s : String) :
    (ALLOWED_RISK_LEVELS.contains (jsTrim (jsToUpper s)) = true →
      sanitizeRiskLevel s = jsTrim (jsToUpper s)) ∧
    (ALLOWED_RISK_LEVELS.contains (jsTrim (jsToUpper s)) = false →
      sanitizeRiskLevel s = "UNKNOWN") ∧
    sanitizeRiskLevel "high" = "HIGH" ∧
    sanitizeRiskLevel "High " = "HIGH" ∧
    sanitizeRiskLevel " HIGH" = "HIGH" ∧
    sanitizeRiskLevel "\x27; DROP TABLE--" = "UNKNOWN" := by
  refine ⟨?_, ?_, by decide, by decide, by decide, by decide⟩
  · intro h
    have h' := (contains_iff_mem _ _).mp h
    simp [sanitizeRiskLevel, h']
  · intro h
    have h' : jsTrim (jsToUpper s) ∉ ALLOWED_RISK_LEVELS :=
      not_mem_of_contains_false h
    simp [sanitizeRiskLevel, h']

/-- C7 witness: the allowlist branch of `sanitizeRiskLevel_spec` at the
concrete input `"MEDIUM "`. -/
theorem sanitizeRiskLevel_spec_witness :
    ALLOWED_RISK_LEVELS.contains (jsTrim (jsToUpper "MEDIUM ")) = true ∧
    sanitizeRiskLevel "MEDIUM " = jsTrim (jsToUpper "MEDIUM ") :=
  ⟨by decide, (sanitizeRiskLevel_spec "MEDIUM ").1 (by decide)⟩

/-- C3: `generateGeminiExplanation` always yields a non-empty string, and in
every failure branch — no API key, non-success HTTP response, timeout,
transport error, empty/whitespace-only generated text, or generated text
containing a blocked term such as `"fraud"` (case-insensitively) — the
result is exactly the newline-join of the template-store lookups for the
sanitized reason codes in the requested language, never the service text. -/
theorem generateGeminiExplanation_spec (apiKey riskLevel : String)
    (reasonCodes : List String) (language : SupportedLanguage) (svc : ServiceResult) :
    generateGeminiExplanation apiKey riskLevel reasonCodes language svc ≠ "" ∧
    (apiKey = "" →
      generateGeminiExplanation apiKey riskLevel reasonCodes language svc =
        staticFallback reasonCodes language) ∧
    (∀ st, svc = .httpError st →
      generateGeminiExplanation apiKey riskLevel reasonCodes language svc =
        staticFallback reasonCodes language) ∧
    (svc = .abortTimeout →
      generateGeminiExplanation apiKey riskLevel reasonCodes language svc =
        staticFallback reasonCodes language) ∧
    (∀ m, svc = .transportError m →
      generateGeminiExplanation apiKey riskLevel reasonCodes language svc =
        staticFallback reasonCodes language) ∧
    (∀ txt, svc = .ok txt → jsTrim txt = "" →
      generateGeminiExplanation apiKey riskLevel reasonCodes language svc =
        staticFallback reasonCodes language) ∧
    (∀ txt, svc = .ok txt → charsContain (jsToLower txt).data "fraud".data = true →
      generateGeminiExplanation apiKey riskLevel reasonCodes language svc =
        staticFallback reasonCodes language) ∧
    (∀ txt, svc = .ok txt → hasBlockedWord txt = false → jsTrim txt ≠ "" →
      apiKey ≠ "" →
      generateGeminiExplanation apiKey riskLevel reasonCodes language svc = jsTrim txt) := by
  have hfb := staticFallback_ne_empty reasonCodes language
  by_cases hkey : apiKey = ""
  · subst hkey
    refine ⟨by simpa [generateGeminiExplanation, staticFallback] using hfb, ?_, ?_, ?_, ?_, ?_, ?_, ?_⟩ <;>
      simp [generateGeminiExplanation, staticFallback]
  · cases svc with
    | httpError st =>
      refine ⟨by simpa [generateGeminiExplanation, hkey, staticFallback] using hfb,
        fun h => absurd h hkey, ?_, by simp, ?_, ?_, ?_, ?_⟩ <;>
        simp [generateGeminiExplanation, hkey, staticFallback]
    | abortTimeout =>
      refine ⟨by simpa [generateGeminiExplanation, hkey, staticFallback] using hfb,
        fun h => absurd h hkey, ?_, ?_, ?_, ?_, ?_, ?_⟩ <;>
        simp [generateGeminiExplanation, hkey, staticFallback]
    | transportError m =>
      refine ⟨by simpa [generateGeminiExplanation, hkey, staticFallback] using hfb,
        fun h => absurd h hkey, ?_, by simp, ?_, ?_, ?_, ?_⟩ <;>
        simp [generateGeminiExplanation, hkey, staticFallback]
    | ok txt =>
      by_cases hguard : hasBlockedWord txt = true ∨ jsTrim txt = ""
      · have hres : generateGeminiExplanation apiKey riskLevel reasonCodes language (.ok txt) =
            staticFallback reasonCodes language := by
          rcases hguard with hg | hg <;>
            simp [generateGeminiExplanation, hkey, staticFallback, hg]
        refine ⟨hres ▸ hfb, fun h => absurd h hkey, by simp, by simp, by simp,
          fun txt' _ _ => hres, fun txt' _ _ => hres,
          fun txt' ht hbw htrim _ => ?_⟩
        injection ht with h
        subst h
        rcases hguard with hg | hg
        · rw [hbw] at hg; exact absurd hg Bool.false_ne_true
        · exact absurd hg htrim
      · push_neg at hguard
        obtain ⟨hbw, htrim⟩ := hguard
        have hbw' : hasBlockedWord txt = false := by
          cases h : hasBlockedWord txt
          · rfl
          · exact absurd h hbw
        have hres : generateGeminiExplanation apiKey riskLevel reasonCodes language (.ok txt) =
            jsTrim txt := by
          simp [generateGeminiExplanation, hkey, hbw', htrim]
        refine ⟨hres ▸ htrim, fun h => absurd h hkey, by simp, by simp, by simp,
          fun txt' ht h => by injection ht with h'; subst h'; exact absurd h htrim,
          fun txt' ht hfraud => ?_, fun txt' ht _ _ _ => by injection ht with h'; subst h'; exact hres⟩
        injection ht with h'
        subst h'
        have : hasBlockedWord txt = true := by
          simp only [hasBlockedWord, blockedWords, List.any_cons]
          rw [hfraud]
          simp
        rw [this] at hbw'
        exact absurd hbw' (by simp)

/-- C3 witness: with no API key configured, the result is exactly the
deterministic fallback and is non-empty, at a concrete input. -/
theorem generateGeminiExplanation_spec_witness :
    generateGeminiExplanation "" "HIGH" ["totally_invalid"] SupportedLanguage.hi
        ServiceResult.abortTimeout =
      staticFallback ["totally_invalid"] SupportedLanguage.hi ∧
    generateGeminiExplanation "" "HIGH" ["totally_invalid"] SupportedLanguage.hi
        ServiceResult.abortTimeout ≠ "" :=
  ⟨(generateGeminiExplanation_spec "" "HIGH" ["totally_invalid"]
      SupportedLanguage.hi ServiceResult.abortTimeout).2.1 rfl,
   (generateGeminiExplanation_spec "" "HIGH" ["totally_invalid"]
      SupportedLanguage.hi ServiceResult.abortTimeout).1⟩

/-- The concrete request used to refute C1: a `CLEARED` action with no
caller-supplied `new_status`. -/
def clearedRequest : AuditRequest :=
  { beneficiary_id := "B-001"
    action := some AuditAction.CLEARED
    officer_id := none
    officer_name := some "Officer A"
    notes := some ""
    new_status := none }

/-- C1 counterexample: posting a `CLEARED` action with no caller-supplied
new status against a case whose read status is `"HIGH"` succeeds and records
`new_status = "HIGH"`, not `"LOW"` — the handler never forces `LOW`. -/
theorem auditPOST_cleared_counterexample :
    (auditPOST clearedRequest (Except.ok (some "HIGH")) (Except.ok ())
        "audit-1" "2026-01-01T00:00:00Z").success = true ∧
    (auditPOST clearedRequest (Except.ok (some "HIGH")) (Except.ok ())
        "audit-1" "2026-01-01T00:00:00Z").audit.map AuditEntry.new_status =
      some "HIGH" ∧
    ("HIGH" : String) ≠ "LOW" := by
  decide

/-- C1 amended: for a `CLEARED` action with no caller-supplied new status,
the created entry's `new_status` equals the `previous_status` read for the
case (the `CLEARED → LOW` forcing is performed by the calling UI, which
supplies `new_status`, not by this handler). -/
theorem auditPOST_cleared_amended (req : AuditRequest) (r : Option String)
    (ins : Except String Unit) (u t : String)
    (hact : req.action = some AuditAction.CLEARED) (hns : req.new_status = none)
    (hb : req.beneficiary_id ≠ "") :
    ∃ e, (auditPOST req (Except.ok r) ins u t).audit = some e ∧
      e.new_status = e.previous_status ∧ e.previous_status = jsOrElse r "UNKNOWN" := by
  refine ⟨buildAuditEntry req AuditAction.CLEARED (jsOrElse r "UNKNOWN") u t, ?_, ?_, rfl⟩
  · cases ins <;> simp [auditPOST, hact, hb]
  · simp [buildAuditEntry, hns, jsOrElse]

/-- C1 witness: the amended statement at the concrete counterexample input. -/
theorem auditPOST_cleared_amended_witness :
    ∃ e, (auditPOST clearedRequest (Except.ok (some "HIGH")) (Except.ok ())
        "audit-1" "2026-01-01T00:00:00Z").audit = some e ∧
      e.new_status = e.previous_status ∧ e.previous_status = jsOrElse (some "HIGH") "UNKNOWN" :=
  auditPOST_cleared_amended clearedRequest (some "HIGH") (Except.ok ())
    "audit-1" "2026-01-01T00:00:00Z" rfl rfl (by decide)

/-- C2 counterexample: a request with a blank officer name succeeds (HTTP
200, `success = true`) instead of being rejected, and so does a `NOTE_ADDED`
action with blank notes — the handler validates neither field. -/
theorem auditPOST_validation_counterexample :
    (auditPOST
        { beneficiary_id := "B-001", action := some AuditAction.REVIEWED,
          officer_id := none, officer_name := some "", notes := some "note",
          new_status := none }
        (Except.ok (some "LOW")) (Except.ok ()) "audit-2" "2026-01-01T00:00:00Z").success
      = true ∧
    (auditPOST
        { beneficiary_id := "B-001", action := some AuditAction.REVIEWED,
          officer_id := none, officer_name := some "", notes := some "note",
          new_status := none }
        (Except.ok (some "LOW")) (Except.ok ()) "audit-2" "2026-01-01T00:00:00Z").audit.map
        AuditEntry.officer_name = some "System User" ∧
    (auditPOST
        { beneficiary_id := "B-001", action := some AuditAction.NOTE_ADDED,
          officer_id := none, officer_name := some "Officer A", notes := some "",
          new_status := none }
        (Except.ok (some "LOW")) (Except.ok ()) "audit-3" "2026-01-01T00:00:00Z").success
      = true := by
  decide

/-- C2 amended: the handler rejects with a client error (HTTP 400) exactly
when `beneficiary_id` is blank/missing or `action` is missing; `officerName`
and `notes` are never validated — with a present beneficiary id and action
the request succeeds even when the officer name is blank or the action is
`NOTE_ADDED` with blank notes. -/
theorem auditPOST_validation_amended (req : AuditRequest)
    (sr : Except String (Option String)) (ins : Except String Unit) (u t : String) :
    ((auditPOST req sr ins u t).status = 400 ↔
      (req.beneficiary_id = "" ∨ req.action = none)) ∧
    (∀ a r, req.action = some a → sr = Except.ok r → req.beneficiary_id ≠ "" →
      (auditPOST req sr ins u t).success = true ∧
      (auditPOST req sr ins u t).status = 200) := by
  constructor
  · by_cases h : req.beneficiary_id = "" ∨ req.action = none
    · simp [auditPOST, h]
    · push_neg at h
      obtain ⟨hb, ha⟩ := h
      rcases hact : req.action with _ | a
      · exact absurd hact ha
      · cases sr <;> cases ins <;>
          simp [auditPOST, hact, hb]
  · rintro a r hact rfl hb
    cases ins <;> simp [auditPOST, hact, hb]

/-- C2 witness: the amended statement at concrete inputs — a blank
beneficiary id yields 400, and a blank officer name still succeeds. -/
theorem auditPOST_validation_amended_witness :
    ((auditPOST
        { beneficiary_id := "", action := some AuditAction.REVIEWED,
          officer_id := none, officer_name := some "Officer A", notes := none,
          new_status := none }
        (Except.ok (some "LOW")) (Except.ok ()) "audit-4" "t").status = 400 ↔
      (("" : String) = "" ∨ (some AuditAction.REVIEWED : Option AuditAction) = none)) ∧
    (auditPOST
        { beneficiary_id := "B-002", action := some AuditAction.NOTE_ADDED,
          officer_id := none, officer_name := some "", notes := some "",
          new_status := none }
        (Except.ok (some "LOW")) (Except.ok ()) "audit-5" "t").success = true :=
  ⟨(auditPOST_validation_amended
      { beneficiary_id := "", action := some AuditAction.REVIEWED,
        officer_id := none, officer_name := some "Officer A", notes := none,
        new_status := none }
      (Except.ok (some "LOW")) (Except.ok ()) "audit-4" "t").1,
   ((auditPOST_validation_amended
      { beneficiary_id := "B-002", action := some AuditAction.NOTE_ADDED,
        officer_id := none, officer_name := some "", notes := some "",
        new_status := none }
      (Except.ok (some "LOW")) (Except.ok ()) "audit-5" "t").2
      AuditAction.NOTE_ADDED (some "LOW") rfl rfl (by decide)).1⟩

/-- C8: when the ledger insert fails but the status read succeeded, the
handler still reports success (HTTP 200, no caller-visible error) together
with the constructed audit entry, and the response is identical to the one
of a successful insert. -/
theorem auditPOST_insert_failure (req : AuditRequest) (a : AuditAction)
    (r : Option String) (msg u t : String)
    (hb : req.beneficiary_id ≠ "") (ha : req.action = some a) :
    (auditPOST req (Except.ok r) (Except.error msg) u t).success = true ∧
    (auditPOST req (Except.ok r) (Except.error msg) u t).status = 200 ∧
    (auditPOST req (Except.ok r) (Except.error msg) u t).error = none ∧
    (auditPOST req (Except.ok r) (Except.error msg) u t).audit =
      some (buildAuditEntry req a (jsOrElse r "UNKNOWN") u t) ∧
    auditPOST req (Except.ok r) (Except.error msg) u t =
      auditPOST req (Except.ok r) (Except.ok ()) u t := by
  simp [auditPOST, ha, hb]

/-- C8 witness: a failed insert at a concrete request still yields success
with the constructed entry. -/
theorem auditPOST_insert_failure_witness :
    (auditPOST clearedRequest (Except.ok (some "MEDIUM"))
        (Except.error "table audit_trail not found") "audit-6" "t").success = true ∧
    (auditPOST clearedRequest (Except.ok (some "MEDIUM"))
        (Except.error "table audit_trail not found") "audit-6" "t").status = 200 ∧
    (auditPOST clearedRequest (Except.ok (some "MEDIUM"))
        (Except.error "table audit_trail not found") "audit-6" "t").error = none ∧
    (auditPOST clearedRequest (Except.ok (some "MEDIUM"))
        (Except.error "table audit_trail not found") "audit-6" "t").audit =
      some (buildAuditEntry clearedRequest AuditAction.CLEARED
        (jsOrElse (some "MEDIUM") "UNKNOWN") "audit-6" "t") ∧
    auditPOST clearedRequest (Except.ok (some "MEDIUM"))
        (Except.error "table audit_trail not found") "audit-6" "t" =
      auditPOST clearedRequest (Except.ok (some "MEDIUM")) (Except.ok ()) "audit-6" "t" :=
  auditPOST_insert_failure clearedRequest AuditAction.CLEARED (some "MEDIUM")
    "table audit_trail not found" "audit-6" "t" (by decide) rfl

lemma sampleVar_nonneg (l : List ℕ) : 0 ≤ sampleVar l := by
  rcases l with _ | ⟨a, t⟩
  · simp [sampleVar]
  · unfold sampleVar
    apply div_nonneg
    · apply List.sum_nonneg
      intro x hx
      obtain ⟨y, _, rfl⟩ := List.mem_map.mp hx
      positivity
    · simp only [List.length_cons]
      push_cast
      linarith [Nat.cast_nonneg (α := ℚ) t.length]

lemma exceeds_iff_real (l : List ℕ) (k : ℚ) (c : ℕ) (hk : 0 ≤ k) :
    exceeds l k c = true ↔
      ((avgCount l : ℝ) + (k : ℝ) * Real.sqrt ((sampleVar l : ℚ) : ℝ) < (c : ℝ)) := by
  unfold exceeds
  simp only [decide_eq_true_eq]
  have hv : (0 : ℝ) ≤ ((sampleVar l : ℚ) : ℝ) := by
    exact_mod_cast sampleVar_nonneg l
  have hk' : (0 : ℝ) ≤ (k : ℝ) := by exact_mod_cast hk
  have hsq : Real.sqrt (((k : ℝ)) ^ 2 * ((sampleVar l : ℚ) : ℝ)) =
      (k : ℝ) * Real.sqrt ((sampleVar l : ℚ) : ℝ) := by
    rw [Real.sqrt_mul (sq_nonneg _), Real.sqrt_sq hk']
  constructor
  · rintro ⟨h1, h2⟩
    have h1R : ((avgCount l : ℚ) : ℝ) < (c : ℝ) := by exact_mod_cast h1
    have h2R : ((k : ℝ)) ^ 2 * ((sampleVar l : ℚ) : ℝ) <
        ((c : ℝ) - ((avgCount l : ℚ) : ℝ)) ^ 2 := by exact_mod_cast h2
    have hx : (0 : ℝ) < (c : ℝ) - ((avgCount l : ℚ) : ℝ) := by linarith
    have hs : Real.sqrt (((k : ℝ)) ^ 2 * ((sampleVar l : ℚ) : ℝ)) <
        (c : ℝ) - ((avgCount l : ℚ) : ℝ) := by
      rw [Real.sqrt_lt' hx]
      exact h2R
    rw [hsq] at hs
    linarith
  · intro h
    have hnn : 0 ≤ (k : ℝ) * Real.sqrt ((sampleVar l : ℚ) : ℝ) :=
      mul_nonneg hk' (Real.sqrt_nonneg _)
    have hx : (0 : ℝ) < (c : ℝ) - ((avgCount l : ℚ) : ℝ) := by linarith
    refine ⟨by exact_mod_cast (by linarith : ((avgCount l : ℚ) : ℝ) < (c : ℝ)), ?_⟩
    have hs : Real.sqrt (((k : ℝ)) ^ 2 * ((sampleVar l : ℚ) : ℝ)) <
        (c : ℝ) - ((avgCount l : ℚ) : ℝ) := by
      rw [hsq]
      linarith
    have := (Real.sqrt_lt' hx).mp hs
    exact_mod_cast this

lemma exceeds_eq_false_iff (l : List ℕ) (k : ℚ) (c : ℕ) (hk : 0 ≤ k) :
    exceeds l k c = false ↔
      ¬ ((avgCount l : ℝ) + (k : ℝ) * Real.sqrt ((sampleVar l : ℚ) : ℝ) < (c : ℝ)) := by
  rw [← exceeds_iff_real l k c hk]
  cases h : exceeds l k c <;> simp

lemma mem_detectSpikes {gcs : List (String × ℕ)} {s : TemporalSpike}
    (h : s ∈ detectSpikes gcs) :
    ∃ p, p ∈ gcs ∧ exceeds (gcs.map Prod.snd) (3/2) p.2 = true ∧
      s.spike_type = spikeType (gcs.map Prod.snd) p.2 ∧
      s.anomaly_count = p.2 ∧
      s.deviation_percentage =
        (if avgCount (gcs.map Prod.snd) = 0 then none
         else some (roundTo 1 (((p.2 : ℚ) - avgCount (gcs.map Prod.snd)) /
           avgCount (gcs.map Prod.snd) * 100))) ∧
      s.affected_districts = [p.1] := by
  simp only [detectSpikes] at h
  obtain ⟨p, hp, rfl⟩ := List.mem_map.mp h
  have hp1 : p ∈ List.insertionSort descCount
      (gcs.filter (fun p => exceeds (gcs.map Prod.snd) (3/2) p.2)) :=
    List.mem_of_mem_take hp
  have hp2 : p ∈ gcs.filter (fun p => exceeds (gcs.map Prod.snd) (3/2) p.2) :=
    (List.perm_insertionSort descCount _).mem_iff.mp hp1
  have hp3 := List.mem_filter.mp hp2
  exact ⟨p, hp3.1, hp3.2, rfl, rfl, rfl, rfl⟩

/-- C9 amended: every returned group strictly exceeds `μ + 1.5σ` (sample
standard deviation, as BigQuery `STDDEV`); the severity is `CRITICAL` iff
the count exceeds `μ + 2.5σ`, `HIGH` iff it exceeds `μ + 2σ` but not
`μ + 2.5σ`, and `MODERATE` iff it exceeds `μ + 1.5σ` but not `μ + 2σ`;
whenever at most 20 groups qualify the output consists of exactly the
qualifying groups; `deviation_percentage` is `(count − μ)/μ × 100` rounded
to one decimal place, omitted when `μ = 0`; and the output is sorted
descending by count. -/
theorem detectSpikes_spec (gcs : List (String × ℕ)) :
    (∀ s ∈ detectSpikes gcs,
      ((avgCount (gcs.map Prod.snd) : ℝ) +
          (3/2 : ℝ) * Real.sqrt ((sampleVar (gcs.map Prod.snd) : ℚ) : ℝ) <
        (s.anomaly_count : ℝ)) ∧
      (s.spike_type = "CRITICAL" ↔
        (avgCount (gcs.map Prod.snd) : ℝ) +
          (5/2 : ℝ) * Real.sqrt ((sampleVar (gcs.map Prod.snd) : ℚ) : ℝ) <
          (s.anomaly_count : ℝ)) ∧
      (s.spike_type = "HIGH" ↔
        ((avgCount (gcs.map Prod.snd) : ℝ) +
            (2 : ℝ) * Real.sqrt ((sampleVar (gcs.map Prod.snd) : ℚ) : ℝ) <
          (s.anomaly_count : ℝ) ∧
         ¬ ((avgCount (gcs.map Prod.snd) : ℝ) +
            (5/2 : ℝ) * Real.sqrt ((sampleVar (gcs.map Prod.snd) : ℚ) : ℝ) <
          (s.anomaly_count : ℝ)))) ∧
      (s.spike_type = "MODERATE" ↔
        ((avgCount (gcs.map Prod.snd) : ℝ) +
            (3/2 : ℝ) * Real.sqrt ((sampleVar (gcs.map Prod.snd) : ℚ) : ℝ) <
          (s.anomaly_count : ℝ) ∧
         ¬ ((avgCount (gcs.map Prod.snd) : ℝ) +
            (2 : ℝ) * Real.sqrt ((sampleVar (gcs.map Prod.snd) : ℚ) : ℝ) <
          (s.anomaly_count : ℝ)))) ∧
      (avgCount (gcs.map Prod.snd) ≠ 0 →
        s.deviation_percentage = some (roundTo 1
          (((s.anomaly_count : ℚ) - avgCount (gcs.map Prod.snd)) /
            avgCount (gcs.map Prod.snd) * 100))) ∧
      (avgCount (gcs.map Prod.snd) = 0 → s.deviation_percentage = none)) ∧
    ((gcs.filter (fun p => exceeds (gcs.map Prod.snd) (3/2) p.2)).length ≤ 20 →
      ((detectSpikes gcs).map (fun s => (s.affected_districts, s.anomaly_count))).Perm
        ((gcs.filter (fun p => exceeds (gcs.map Prod.snd) (3/2) p.2)).map
          (fun p => ([p.1], p.2)))) ∧
    List.Pairwise (fun s t => t.anomaly_count ≤ s.anomaly_count) (detectSpikes gcs) := by
  have c32 : ((3/2 : ℚ) : ℝ) = (3/2 : ℝ) := by norm_num
  have c2 : ((2 : ℚ) : ℝ) = (2 : ℝ) := by norm_num
  have c52 : ((5/2 : ℚ) : ℝ) = (5/2 : ℝ) := by norm_num
  refine ⟨?_, ?_, ?_⟩
  · intro s hs
    obtain ⟨p, hpg, hpf, hst, hsc, hsd, hsa⟩ := mem_detectSpikes hs
    have hσ : 0 ≤ Real.sqrt ((sampleVar (gcs.map Prod.snd) : ℚ) : ℝ) :=
      Real.sqrt_nonneg _
    have h32 : (avgCount (gcs.map Prod.snd) : ℝ) +
        (3/2 : ℝ) * Real.sqrt ((sampleVar (gcs.map Prod.snd) : ℚ) : ℝ) < (p.2 : ℝ) := by
      have := (exceeds_iff_real (gcs.map Prod.snd) (3/2) p.2 (by norm_num)).mp hpf
      rwa [c32] at this
    rw [hst, hsc, hsd]
    by_cases h52 : exceeds (gcs.map Prod.snd) (5/2) p.2 = true
    · have hr52 : (avgCount (gcs.map Prod.snd) : ℝ) +
          (5/2 : ℝ) * Real.sqrt ((sampleVar (gcs.map Prod.snd) : ℚ) : ℝ) < (p.2 : ℝ) := by
        have := (exceeds_iff_real (gcs.map Prod.snd) (5/2) p.2 (by norm_num)).mp h52
        rwa [c52] at this
      have hr2 : (avgCount (gcs.map Prod.snd) : ℝ) +
          (2 : ℝ) * Real.sqrt ((sampleVar (gcs.map Prod.snd) : ℚ) : ℝ) < (p.2 : ℝ) := by
        linarith
      have hsp : spikeType (gcs.map Prod.snd) p.2 = "CRITICAL" := by
        simp [spikeType, h52]
      rw [hsp]
      exact ⟨h32, iff_of_true rfl hr52,
        iff_of_false (by decide) (fun h => h.2 hr52),
        iff_of_false (by decide) (fun h => h.2 hr2),
        fun hne => by rw [if_neg hne], fun he => by rw [if_pos he]⟩
    · have hf52 : exceeds (gcs.map Prod.snd) (5/2) p.2 = false :=
        Bool.eq_false_iff.mpr h52
      have hn52 : ¬ ((avgCount (gcs.map Prod.snd) : ℝ) +
          (5/2 : ℝ) * Real.sqrt ((sampleVar (gcs.map Prod.snd) : ℚ) : ℝ) < (p.2 : ℝ)) := by
        have := (exceeds_eq_false_iff (gcs.map Prod.snd) (5/2) p.2 (by norm_num)).mp hf52
        rwa [c52] at this
      by_cases h2 : exceeds (gcs.map Prod.snd) 2 p.2 = true
      · have hr2 : (avgCount (gcs.map Prod.snd) : ℝ) +
            (2 : ℝ) * Real.sqrt ((sampleVar (gcs.map Prod.snd) : ℚ) : ℝ) < (p.2 : ℝ) := by
          have := (exceeds_iff_real (gcs.map Prod.snd) 2 p.2 (by norm_num)).mp h2
          rwa [c2] at this
        have hsp : spikeType (gcs.map Prod.snd) p.2 = "HIGH" := by
          simp [spikeType, hf52, h2]
        rw [hsp]
        exact ⟨h32, iff_of_false (by decide) (fun h => hn52 h),
          iff_of_true rfl ⟨hr2, hn52⟩,
          iff_of_false (by decide) (fun h => h.2 hr2),
          fun hne => by rw [if_neg hne], fun he => by rw [if_pos he]⟩
      · have hf2 : exceeds (gcs.map Prod.snd) 2 p.2 = false :=
          Bool.eq_false_iff.mpr h2
        have hn2 : ¬ ((avgCount (gcs.map Prod.snd) : ℝ) +
            (2 : ℝ) * Real.sqrt ((sampleVar (gcs.map Prod.snd) : ℚ) : ℝ) < (p.2 : ℝ)) := by
          have := (exceeds_eq_false_iff (gcs.map Prod.snd) 2 p.2 (by norm_num)).mp hf2
          rwa [c2] at this
        have hsp : spikeType (gcs.map Prod.snd) p.2 = "MODERATE" := by
          simp [spikeType, hf52, hf2]
        rw [hsp]
        exact ⟨h32, iff_of_false (by decide) (fun h => hn2 (by linarith)),
          iff_of_false (by decide) (fun h => hn2 h.1),
          iff_of_true rfl ⟨h32, hn2⟩,
          fun hne => by rw [if_neg hne], fun he => by rw [if_pos he]⟩
  · intro hlen
    simp only [detectSpikes]
    have hperm := List.perm_insertionSort descCount
      (gcs.filter (fun p => exceeds (gcs.map Prod.snd) (3/2) p.2))
    have hlen' : (List.insertionSort descCount
        (gcs.filter (fun p => exceeds (gcs.map Prod.snd) (3/2) p.2))).length ≤ 20 := by
      rw [hperm.length_eq]
      exact hlen
    rw [List.take_of_length_le hlen', List.map_map]
    exact hperm.map _
  · simp only [detectSpikes]
    have hsorted := List.sorted_insertionSort descCount
      (gcs.filter (fun p => exceeds (gcs.map Prod.snd) (3/2) p.2))
    have htake : List.Pairwise descCount ((List.insertionSort descCount
        (gcs.filter (fun p => exceeds (gcs.map Prod.snd) (3/2) p.2))).take 20) :=
      List.Pairwise.sublist (List.take_sublist 20 _) hsorted
    exact List.Pairwise.map _ (fun a b h => h) htake

/-- Concrete group counts used to settle the spike claims: six districts
with one anomaly each and one district with 43. -/
def exC9 : List (String × ℕ) :=
  [("A", 1), ("B", 1), ("C", 1), ("D", 1), ("E", 1), ("F", 1), ("G", 43)]

lemma exC9_avg : avgCount (exC9.map Prod.snd) = 7 := by
  norm_num [exC9, avgCount]

lemma exC9_var : sampleVar (exC9.map Prod.snd) = 252 := by
  norm_num [exC9, sampleVar, avgCount]

lemma exC9_exceeds_one : exceeds (exC9.map Prod.snd) (3/2) 1 = false := by
  have h : ¬ (avgCount (exC9.map Prod.snd) < (1 : ℚ) ∧
      (3/2 : ℚ) ^ 2 * sampleVar (exC9.map Prod.snd) <
        ((1 : ℚ) - avgCount (exC9.map Prod.snd)) ^ 2) := by
    rw [exC9_avg]
    rintro ⟨h1, _⟩
    norm_num at h1
  simp [exceeds, h]

lemma exC9_exceeds_big : exceeds (exC9.map Prod.snd) (3/2) 43 = true := by
  have h : avgCount (exC9.map Prod.snd) < (43 : ℚ) ∧
      (3/2 : ℚ) ^ 2 * sampleVar (exC9.map Prod.snd) <
        ((43 : ℚ) - avgCount (exC9.map Prod.snd)) ^ 2 := by
    rw [exC9_avg, exC9_var]
    norm_num
  simp [exceeds, h]

lemma exC9_exceeds_big_two : exceeds (exC9.map Prod.snd) 2 43 = true := by
  have h : avgCount (exC9.map Prod.snd) < (43 : ℚ) ∧
      (2 : ℚ) ^ 2 * sampleVar (exC9.map Prod.snd) <
        ((43 : ℚ) - avgCount (exC9.map Prod.snd)) ^ 2 := by
    rw [exC9_avg, exC9_var]
    norm_num
  simp [exceeds, h]

lemma exC9_exceeds_big_crit : exceeds (exC9.map Prod.snd) (5/2) 43 = false := by
  have h : ¬ (avgCount (exC9.map Prod.snd) < (43 : ℚ) ∧
      (5/2 : ℚ) ^ 2 * sampleVar (exC9.map Prod.snd) <
        ((43 : ℚ) - avgCount (exC9.map Prod.snd)) ^ 2) := by
    rw [exC9_avg, exC9_var]
    rintro ⟨_, h2⟩
    norm_num at h2
  simp [exceeds, h]

lemma exC9_filter : exC9.filter (fun p => exceeds (exC9.map Prod.snd) (3/2) p.2) =
    [("G", 43)] := by
  have h1 : exceeds [1, 1, 1, 1, 1, 1, 43] (3/2) 1 = false := exC9_exceeds_one
  have h2 : exceeds [1, 1, 1, 1, 1, 1, 43] (3/2) 43 = true := exC9_exceeds_big
  simp [exC9, List.filter, h1, h2]

lemma exC9_detect : detectSpikes exC9 =
    [{ spike_type := "HIGH", anomaly_count := 43, avg_baseline := 7,
       deviation_percentage := some (5143/10), affected_districts := ["G"] }] := by
  have hfil := exC9_filter
  have hsp : spikeType (exC9.map Prod.snd) 43 = "HIGH" := by
    simp [spikeType, exC9_exceeds_big_crit, exC9_exceeds_big_two]
  have hbase : roundTo 2 (avgCount (exC9.map Prod.snd)) = 7 := by
    rw [exC9_avg]
    norm_num [roundTo, round_eq]
  have hdev : roundTo 1 (((43 : ℚ) - avgCount (exC9.map Prod.snd)) /
      avgCount (exC9.map Prod.snd) * 100) = 5143/10 := by
    rw [exC9_avg]
    norm_num [roundTo, round_eq]
  have hne : avgCount (exC9.map Prod.snd) ≠ 0 := by
    rw [exC9_avg]
    norm_num
  simp only [detectSpikes, hfil]
  rw [show List.insertionSort descCount [("G", 43)] = [("G", 43)] from rfl]
  rw [show ([("G", 43)] : List (String × ℕ)).take 20 = [("G", 43)] from rfl]
  simp [hsp, hbase, hdev, hne]

/-- C9 counterexample: the returned `deviation_percentage` is the rounded
value `514.3`, not the exact `(count − μ)/μ × 100 = 3600/7` the claim
states — the query rounds to one decimal place. -/
theorem detectSpikes_deviation_counterexample :
    (detectSpikes exC9).map TemporalSpike.deviation_percentage = [some ((5143 : ℚ)/10)] ∧
    ¬ ((5143 : ℚ)/10 =
      ((43 : ℚ) - avgCount (exC9.map Prod.snd)) / avgCount (exC9.map Prod.snd) * 100) := by
  constructor
  · rw [exC9_detect]
    rfl
  · rw [exC9_avg]
    norm_num

/-- C9 witness: at the concrete counts the at-most-20 hypothesis holds and
the output is exactly the qualifying groups. -/
theorem detectSpikes_spec_witness :
    ((detectSpikes exC9).map (fun s => (s.affected_districts, s.anomaly_count))).Perm
      ((exC9.filter (fun p => exceeds (exC9.map Prod.snd) (3/2) p.2)).map
        (fun p => ([p.1], p.2))) :=
  (detectSpikes_spec exC9).2.1 (by rw [exC9_filter]; decide)

/-- C10: the spike listing returns at most 20 groups — exactly
`min 20 (number of qualifying groups)` — and every group dropped beyond the
first 20 of the descending order has a count no larger than every returned
count. -/
theorem detectSpikes_limit (gcs : List (String × ℕ)) :
    (detectSpikes gcs).length ≤ 20 ∧
    (detectSpikes gcs).length =
      min 20 (gcs.filter (fun p => exceeds (gcs.map Prod.snd) (3/2) p.2)).length ∧
    (∀ p ∈ (List.insertionSort descCount
        (gcs.filter (fun p => exceeds (gcs.map Prod.snd) (3/2) p.2))).drop 20,
      ∀ s ∈ detectSpikes gcs, p.2 ≤ s.anomaly_count) := by
  have hperm := List.perm_insertionSort descCount
    (gcs.filter (fun p => exceeds (gcs.map Prod.snd) (3/2) p.2))
  refine ⟨?_, ?_, ?_⟩
  · simp only [detectSpikes]
    rw [List.length_map, List.length_take]
    exact min_le_left _ _
  · simp only [detectSpikes]
    rw [List.length_map, List.length_take, hperm.length_eq]
  · intro p hp s hs
    simp only [detectSpikes] at hs
    obtain ⟨q, hq, rfl⟩ := List.mem_map.mp hs
    have hsorted := List.sorted_insertionSort descCount
      (gcs.filter (fun p => exceeds (gcs.map Prod.snd) (3/2) p.2))
    have hpw : List.Pairwise descCount
        ((List.insertionSort descCount
          (gcs.filter (fun p => exceeds (gcs.map Prod.snd) (3/2) p.2))).take 20 ++
         (List.insertionSort descCount
          (gcs.filter (fun p => exceeds (gcs.map Prod.snd) (3/2) p.2))).drop 20) := by
      rw [List.take_append_drop]
      exact hsorted
    exact (List.pairwise_append.mp hpw).2.2 q hq p hp

/-- C10 witness: the bound instantiated at the concrete counts. -/
theorem detectSpikes_limit_witness : (detectSpikes exC9).length ≤ 20 :=
  (detectSpikes_limit exC9).1

/-- C4 witness: with no flag set the derived list is exactly `["normal"]`. -/
theorem flagsToReasonCodes_spec_witness :
    flagsToReasonCodes ⟨false, false, false, false⟩ = ["normal"] :=
  (flagsToReasonCodes_spec ⟨false, false, false, false⟩).2.2.1 (by decide)
